import Mathlib

/-!
Formal model of the content-based recommendation engine of the
Libaraybackend library-management backend, together with theorems settling
the specification claims about it.

The model is a shallow embedding of `src/app/recommendations.py` (the core
TF-IDF / cosine-similarity pipeline), of the database-facing wrappers in
`src/app/crud.py`, and of the HTTP handler `get_my_recommendations` in
`src/app/main.py`.  Python strings are Lean `String`s (the text handling is
modelled for ASCII text, which is all the concrete instances use), machine
floats are modelled as real numbers, Python lists are Lean `List`s, and the
exceptions the pipeline can raise (`KeyError` from pandas on an empty
DataFrame, `ValueError` from sklearn on an empty vocabulary) are modelled by
`Except String`.
-/

/-- Catalog / borrowed item record: a row of `models.Book` as consumed by
`recommendations.get_recommendations` (the fields `id`, `title`, `author`,
`isbn`, `genre` created in `schemas.BookCreate` plus the primary key). -/
structure Book where
  id : Int
  title : String
  author : String
  isbn : String
  genre : String
  deriving DecidableEq, Inhabited

/-- Word characters of sklearn's default token pattern `\b\w\w+\b`
(alphanumeric characters and the underscore; modelled for ASCII text). -/
def isWordChar (c : Char) : Bool := c.isAlphanum || c == '_'

/-- Maximal runs of word characters of a character list; the accumulator
holds the current run reversed. -/
def wordRunsAux : List Char → List Char → List (List Char)
  | [], acc => if acc.isEmpty then [] else [acc.reverse]
  | c :: cs, acc =>
    if isWordChar c then
      wordRunsAux cs (c :: acc)
    else if acc.isEmpty then
      wordRunsAux cs []
    else
      acc.reverse :: wordRunsAux cs []

/-- Tokenization of `TfidfVectorizer` with its default settings: lowercase
the text, then keep the maximal word-character runs of length at least two
(the token pattern `\b\w\w+\b`). -/
def tokenize (s : String) : List String :=
  ((wordRunsAux (s.data.map Char.toLower) []).filter (fun r => 2 ≤ r.length)).map
    (fun r => String.mk r)

/-- The fixed English stop-word list selected by `stop_words="english"`
(sklearn's built-in `ENGLISH_STOP_WORDS`).  The spec treats the exact list as
an external versionable resource; no theorem below depends on its exact
contents, only on the membership of the common function words used in the
concrete instances, so a representative sublist of the real list is
modelled. -/
def englishStopWords : List String :=
  ["a", "about", "above", "after", "again", "against", "all", "am", "an",
   "and", "any", "are", "as", "at", "be", "because", "been", "before",
   "being", "below", "between", "both", "but", "by", "could", "do", "down",
   "during", "each", "few", "for", "from", "further", "had", "has", "have",
   "having", "he", "her", "here", "hers", "herself", "him", "himself", "his",
   "how", "i", "in", "into", "is", "it", "its", "itself", "me", "more",
   "most", "my", "myself", "no", "nor", "not", "of", "off", "on", "once",
   "only", "or", "other", "our", "ours", "ourselves", "out", "over", "own",
   "same", "she", "should", "so", "some", "such", "than", "that", "the",
   "their", "theirs", "them", "themselves", "then", "there", "these", "they",
   "this", "those", "through", "to", "too", "under", "until", "up", "very",
   "was", "we", "were", "what", "when", "where", "which", "while", "who",
   "whom", "why", "will", "with", "you", "your", "yours", "yourself",
   "yourselves"]

/-- Terms a document contributes to the term-frequency model: its tokens
with the stop words removed (sklearn removes stop words after
tokenization). -/
def tfTokens (s : String) : List String :=
  (tokenize s).filter (fun t => !(englishStopWords.contains t))

/-- The vocabulary fitted on the catalog documents: every non-stop-word
token of some document, each term once.  (sklearn additionally sorts the
vocabulary alphabetically to assign column indices; since vectors are
modelled as functions from terms, the column order is irrelevant and the
first-occurrence order is kept.) -/
def vocabulary (docs : List String) : List String :=
  (docs.flatMap tfTokens).dedup

/-- Smoothed inverse document frequency of `TfidfTransformer` with its
default settings (`smooth_idf=True`): `log((1 + N) / (1 + df(t))) + 1` where
`N` is the number of fitted documents and `df(t)` the number of fitted
documents containing `t`. -/
noncomputable def idf (docs : List String) (t : String) : ℝ :=
  Real.log ((1 + docs.length) / (1 + (docs.filter (fun d => t ∈ tfTokens d)).length)) + 1

/-- Unnormalized TF-IDF vector of a text in the space fitted on `docs`:
raw term count times the fitted idf on vocabulary terms, zero elsewhere
(terms absent from the fitted vocabulary are dropped).  `fit_transform` on a
fitted document and `transform` on a borrowed title both compute exactly
this, reusing the idf weights fitted on the catalog documents. -/
noncomputable def rawTfidf (docs : List String) (text : String) (t : String) : ℝ :=
  if t ∈ vocabulary docs then ((tfTokens text).count t : ℝ) * idf docs t else 0

/-- Dot product of two term-indexed vectors over the fitted vocabulary
(the vectors below are supported on it). -/
noncomputable def dotProduct (vocab : List String) (u v : String → ℝ) : ℝ :=
  (vocab.map (fun t => u t * v t)).sum

/-- Euclidean norm of a term-indexed vector over the fitted vocabulary. -/
noncomputable def l2Norm (vocab : List String) (v : String → ℝ) : ℝ :=
  Real.sqrt (dotProduct vocab v v)

/-- L2 row normalization as performed by sklearn (`norm="l2"` in
`TfidfTransformer`, and again inside `cosine_similarity`): rows of norm zero
are left unchanged (sklearn replaces a zero norm by one before dividing, so
a zero row stays the zero row). -/
noncomputable def normalizeVec (vocab : List String) (v : String → ℝ) : String → ℝ :=
  if l2Norm vocab v = 0 then v else fun t => v t / l2Norm vocab v

/-- TF-IDF vector of a text in the space fitted on `docs`, L2-normalized. -/
noncomputable def tfidfVector (docs : List String) (text : String) : String → ℝ :=
  normalizeVec (vocabulary docs) (rawTfidf docs text)

/-- Cosine similarity as computed by `sklearn.metrics.pairwise
.cosine_similarity`: normalize both rows, then take the dot product; any
row of norm zero is left as the zero row, so its similarity to everything
is `0`. -/
noncomputable def cosineSim (vocab : List String) (u v : String → ℝ) : ℝ :=
  dotProduct vocab (normalizeVec vocab u) (normalizeVec vocab v)

/-- The per-catalog-item recommendation scores, index-aligned with the
catalog documents: entry `j` is `cosine_sim.mean(axis=0)` at column `j`,
i.e. the sum over all borrowed titles `i` of the cosine similarity between
borrowed-title vector `i` and document vector `j`, divided by the number of
borrowed titles (duplicated borrowed entries each contribute a summand). -/
noncomputable def recommendationScores (titles docs : List String) : List ℝ :=
  docs.map (fun d =>
    ((titles.map (fun ti =>
      cosineSim (vocabulary docs) (tfidfVector docs ti) (tfidfVector docs d))).sum)
      / titles.length)

/-- The index comparison modelling `numpy.argsort`: ascending score, with
ties by ascending index.  NumPy's default sort (introsort) determines the
order only up to ties: it runs a pure, stable insertion sort exactly on
arrays of at most `16` elements (`n - 1 > 15` triggers partitioning), so
this stable order coincides with the program's argsort precisely on such
arrays, while on longer arrays the quicksort partition can move equal
elements past each other and NumPy guarantees no particular tie order.
Every theorem below is therefore either tie-order-invariant (the output is
used only up to permutation, membership, filtering or length), or carries
an explicit hypothesis restricting the catalog to the insertion-sort
regime where this model is exact. -/
noncomputable def argsortRel (s : List ℝ) (i j : ℕ) : Prop :=
  s.getD i 0 < s.getD j 0 ∨ (s.getD i 0 = s.getD j 0 ∧ i ≤ j)

noncomputable instance argsortRelDecidable (s : List ℝ) : DecidableRel (argsortRel s) :=
  fun i j => by unfold argsortRel; exact inferInstance

/-- The index order produced by `recommendation_scores.argsort()[::-1]`:
ascending argsort of the scores, then reversal.  The tie order of the
underlying argsort is modelled as stable; see `argsortRel` for the regime
(arrays of at most `16` elements) in which this provably matches NumPy,
and for how the theorems below avoid depending on tie order outside it. -/
noncomputable def argsortDesc (s : List ℝ) : List ℕ :=
  (List.insertionSort (argsortRel s) (List.range s.length)).reverse

/-- The content document of a catalog item:
`all_books_df["title"] + " " + all_books_df["author"] + " " + all_books_df["genre"]`. -/
def contentOf (b : Book) : String :=
  b.title ++ " " ++ b.author ++ " " ++ b.genre

namespace Recommendations

/-- Shallow embedding of `recommendations.get_recommendations`:

* an empty borrowed list short-circuits to the empty result;
* an empty catalog makes `pd.DataFrame([])` an empty frame with no columns,
  so the column access `all_books_df["title"]` raises `KeyError`;
* a catalog whose documents yield no vocabulary terms makes
  `TfidfVectorizer.fit_transform` raise `ValueError` (empty vocabulary);
* otherwise the scores are computed, the indices are ranked by
  `argsort()[::-1]`, and the loop appends `all_books[idx]` whenever its id
  is not in `user_borrowed_books_df["id"].tolist()`. -/
noncomputable def get_recommendations (user_borrowed_books all_books : List Book) :
    Except String (List Book) :=
  if user_borrowed_books = [] then
    Except.ok []
  else if all_books = [] then
    Except.error "KeyError: title"
  else if vocabulary (all_books.map contentOf) = [] then
    Except.error "ValueError: empty vocabulary"
  else
    Except.ok
      (((argsortDesc (recommendationScores (user_borrowed_books.map Book.title)
            (all_books.map contentOf))).filter
          (fun i => decide ((all_books.getD i default).id ∉ user_borrowed_books.map Book.id))).map
        (fun i => all_books.getD i default))

end Recommendations

/-- Python list slicing `l[:k]`: the first `k` elements for `k ≥ 0`, and all
but the last `-k` elements for `k < 0`. -/
def pythonSliceTake (k : Int) (l : List α) : List α :=
  if 0 ≤ k then l.take k.toNat else l.take (l.length - (-k).toNat)

/-- The spec's `recommend(borrowed_items, catalog, limit)` entry point as the
code realizes it: the core ranking of `recommendations.get_recommendations`
followed by the Python slicing `recommended_books[:limit]` performed in
`crud.get_recommendations`. -/
noncomputable def recommend (borrowed catalog : List Book) (limit : Int) :
    Except String (List Book) :=
  (Recommendations.get_recommendations borrowed catalog).map (pythonSliceTake limit)

/-- A row of `models.BorrowedBook`: primary key, borrowing user, borrowed
book, due date, and the nullable return date (dates coded as integers). -/
structure BorrowedBookRec where
  id : Int
  user_id : Int
  book_id : Int
  due_date : Int
  returned_date : Option Int
  deriving DecidableEq, Inhabited

/-- Database state visible to the crud layer: the `books` table and the
`borrowed_books` table. -/
structure DB where
  books : List Book
  borrows : List BorrowedBookRec
  deriving DecidableEq, Inhabited

namespace Crud

/-- The Python value of the filter operand `models.BorrowedBook.returned_date
is None` in `crud.get_borrowed_books_by_user`: `is` compares the SQLAlchemy
`Column` attribute object itself against `None` by identity when the query is
built, and the attribute object is never `None`, so the operand is the
constant `False` (which SQLAlchemy coerces to the SQL clause matching no
row). -/
def returnedDateColumnIsNone : Bool := false

/-- Shallow embedding of `crud.get_borrowed_books_by_user`: the
`borrowed_books` rows satisfying both filter conditions, then
`offset(skip).limit(limit)`. -/
def get_borrowed_books_by_user (db : DB) (user_id : Int) (skip limit : ℕ) :
    List BorrowedBookRec :=
  (((db.borrows.filter
      (fun r => r.user_id == user_id && returnedDateColumnIsNone)).drop skip).take limit)

/-- The borrowed-books query of `crud.get_recommendations`:
`db.query(models.Book).join(models.BorrowedBook)` filtered on
`BorrowedBook.user_id == user_id`, with no condition on `returned_date`
(returned borrows are included).  The join pairs each book with each of the
user's borrow rows for it, and the legacy SQLAlchemy `Query` deduplicates
full-entity result rows by primary-key identity, so the result holds each
book the user has ever borrowed once; SQL leaves the row order unspecified
and it is modelled as book-table order. -/
def userBorrowedBooks (db : DB) (user_id : Int) : List Book :=
  db.books.filter
    (fun b => db.borrows.any (fun r => r.user_id == user_id && r.book_id == b.id))

/-- Shallow embedding of `crud.get_recommendations`: the user's borrowed
books as above, the whole `books` table as the catalog, the core ranking,
and the Python slice `recommended_books[:limit]` (the parameter defaults to
`10` in the source). -/
noncomputable def get_recommendations (db : DB) (user_id : Int) (limit : Int) :
    Except String (List Book) :=
  recommend (userBorrowedBooks db user_id) db.books limit

end Crud

namespace Main

/-- Shallow embedding of the handler `get_my_recommendations` of the HTTP
endpoint `/users/me/recommendations/` in `main.py`: it calls
`crud.get_recommendations(db, user_id=current_user.id)` without a `limit`
argument, so the Python default `limit=10` applies. -/
noncomputable def get_my_recommendations (db : DB) (current_user_id : Int) :
    Except String (List Book) :=
  Crud.get_recommendations db current_user_id 10

end Main

/-! ### Concrete fixtures used in the concrete instances below -/

/-- A borrowed book whose title shares no vocabulary with the catalogs
below ("xylophone" occurs in no catalog document). -/
def bookXylo : Book := ⟨9, "Xylophone", "Qwerty", "0000", "Zzz"⟩

/-- Two catalog items with identical content text (identical title, author
and genre) but distinct ids, hence mathematically identical scores. -/
def bookDuneA : Book := ⟨2, "Dune", "Herbert", "1111", "SciFi"⟩

def bookDuneB : Book := ⟨3, "Dune", "Herbert", "2222", "SciFi"⟩

/-- A catalog item with the same id and title as `bookDuneA` but different
author, isbn and genre. -/
def bookDuneVariant : Book := ⟨2, "Dune", "Changed", "9999", "Poetry"⟩

/-- A third, textually unrelated catalog item. -/
def bookAusten : Book := ⟨4, "Pride Prejudice", "Austen", "3333", "Romance"⟩

/-- A catalog item whose content text consists of stop words only, so it
contributes no vocabulary term. -/
def bookStop : Book := ⟨5, "The", "And", "4444", "Of"⟩

/-- Two borrow rows of the same user for the same book, one of them
returned. -/
def borrowActive : BorrowedBookRec := ⟨1, 7, 2, 100, none⟩

def borrowReturned : BorrowedBookRec := ⟨2, 7, 2, 100, some 50⟩

/-- A database in which user `7` has two borrow records of the single
catalog book. -/
def dbDup : DB := ⟨[bookDuneA], [borrowActive, borrowReturned]⟩

/-! ### Basic lemmas about the vector layer -/

theorem dotProduct_zero_left (vocab : List String) (v : String → ℝ) :
    dotProduct vocab (fun _ => 0) v = 0 := by
  unfold dotProduct
  simp

theorem normalizeVec_zero (vocab : List String) :
    normalizeVec vocab (fun _ => 0) = (fun _ => (0 : ℝ)) := by
  unfold normalizeVec
  rw [if_pos]
  unfold l2Norm
  rw [dotProduct_zero_left, Real.sqrt_zero]

theorem cosineSim_zero_left (vocab : List String) (v : String → ℝ) :
    cosineSim vocab (fun _ => 0) v = 0 := by
  unfold cosineSim
  rw [normalizeVec_zero, dotProduct_zero_left]

theorem rawTfidf_eq_zero (docs : List String) (text : String)
    (h : ∀ t ∈ tfTokens text, t ∉ vocabulary docs) :
    rawTfidf docs text = (fun _ => (0 : ℝ)) := by
  funext t
  unfold rawTfidf
  by_cases hv : t ∈ vocabulary docs
  · rw [if_pos hv, List.count_eq_zero.mpr, Nat.cast_zero, zero_mul]
    intro hmem
    exact h t hmem hv
  · rw [if_neg hv]

theorem tfidfVector_eq_zero (docs : List String) (text : String)
    (h : ∀ t ∈ tfTokens text, t ∉ vocabulary docs) :
    tfidfVector docs text = (fun _ => (0 : ℝ)) := by
  unfold tfidfVector
  rw [rawTfidf_eq_zero docs text h, normalizeVec_zero]

theorem recommendationScores_eq_zero (titles docs : List String)
    (h : ∀ ti ∈ titles, ∀ t ∈ tfTokens ti, t ∉ vocabulary docs) :
    ∀ x ∈ recommendationScores titles docs, x = 0 := by
  intro x hx
  unfold recommendationScores at hx
  obtain ⟨d, _, rfl⟩ := List.mem_map.mp hx
  rw [List.sum_eq_zero, zero_div]
  intro y hy
  obtain ⟨ti, hti, rfl⟩ := List.mem_map.mp hy
  rw [tfidfVector_eq_zero docs ti (h ti hti), cosineSim_zero_left]

theorem getD_eq_zero_of_all_zero :
    ∀ (s : List ℝ), (∀ x ∈ s, x = 0) → ∀ i, s.getD i 0 = 0
  | [], _, i => by simp
  | a :: s, h, 0 => by simpa using h a (by simp)
  | a :: s, h, (i + 1) => by
    simpa using getD_eq_zero_of_all_zero s (fun x hx => h x (by simp [hx])) i

/-! ### Lemmas about the ranking order -/

theorem argsortDesc_perm (s : List ℝ) : List.Perm (argsortDesc s) (List.range s.length) := by
  unfold argsortDesc
  exact (List.reverse_perm _).trans (List.perm_insertionSort _ _)

theorem argsortDesc_of_all_zero (s : List ℝ) (h : ∀ x ∈ s, x = 0) :
    argsortDesc s = (List.range s.length).reverse := by
  unfold argsortDesc
  congr 1
  apply List.Sorted.insertionSort_eq
  apply List.Pairwise.imp _ (List.sorted_lt_range s.length)
  intro i j hij
  exact Or.inr ⟨by rw [getD_eq_zero_of_all_zero s h, getD_eq_zero_of_all_zero s h],
    Nat.le_of_lt hij⟩

theorem filter_map_range_getD (p : Book → Bool) :
    ∀ l : List Book,
      ((List.range l.length).filter (fun i => p (l.getD i default))).map
          (fun i => l.getD i default) = l.filter p
  | [] => by simp
  | a :: l => by
    have ih := filter_map_range_getD p l
    have hf : ((fun i => (a :: l).getD i default) ∘ Nat.succ) =
        (fun i => l.getD i default) := by
      funext i
      simp
    have hq : ((fun i => p ((a :: l).getD i default)) ∘ Nat.succ) =
        (fun i => p (l.getD i default)) := by
      funext i
      simp
    by_cases hpa : p a = true
    · simp only [List.length_cons, List.range_succ_eq_map, List.filter_cons,
        List.getD_cons_zero, hpa, if_true, List.map_cons, List.filter_map,
        List.map_map, hf, hq, ih]
    · simp only [List.length_cons, List.range_succ_eq_map, List.filter_cons,
        List.getD_cons_zero, hpa, if_false, List.filter_map,
        List.map_map, hf, hq, ih, Bool.false_eq_true]

/-! ### Characterizations of the core pipeline -/

theorem filter_map_range_getD_ids (ids : List Int) (l : List Book) :
    ((List.range l.length).filter (fun i => decide ((l.getD i default).id ∉ ids))).map
        (fun i => l.getD i default) = l.filter (fun x => decide (x.id ∉ ids)) :=
  filter_map_range_getD (fun x => decide (x.id ∉ ids)) l

theorem core_eq_of_nonempty (b c : List Book) (hb : b ≠ []) (hc : c ≠ [])
    (hv : vocabulary (c.map contentOf) ≠ []) :
    Recommendations.get_recommendations b c =
      Except.ok
        (((argsortDesc (recommendationScores (b.map Book.title) (c.map contentOf))).filter
            (fun i => decide ((c.getD i default).id ∉ b.map Book.id))).map
          (fun i => c.getD i default)) := by
  unfold Recommendations.get_recommendations
  rw [if_neg hb, if_neg hc, if_neg hv]

theorem recommendationScores_length (titles docs : List String) :
    (recommendationScores titles docs).length = docs.length := by
  unfold recommendationScores
  rw [List.length_map]

theorem core_eq_reverse_of_zero_overlap (b c : List Book) (hb : b ≠ []) (hc : c ≠ [])
    (hv : vocabulary (c.map contentOf) ≠ [])
    (hz : ∀ bk ∈ b, ∀ t ∈ tfTokens bk.title, t ∉ vocabulary (c.map contentOf)) :
    Recommendations.get_recommendations b c =
      Except.ok ((c.filter (fun x => decide (x.id ∉ b.map Book.id))).reverse) := by
  rw [core_eq_of_nonempty b c hb hc hv]
  congr 1
  have hzero : ∀ x ∈ recommendationScores (b.map Book.title) (c.map contentOf), x = 0 := by
    apply recommendationScores_eq_zero
    intro ti hti
    obtain ⟨bk, hbk, rfl⟩ := List.mem_map.mp hti
    exact hz bk hbk
  rw [argsortDesc_of_all_zero _ hzero, recommendationScores_length,
    List.length_map, List.filter_reverse, List.map_reverse, filter_map_range_getD_ids]

theorem recommend_eq_of_zero_overlap (b c : List Book) (k : Int) (hb : b ≠ []) (hc : c ≠ [])
    (hv : vocabulary (c.map contentOf) ≠ [])
    (hz : ∀ bk ∈ b, ∀ t ∈ tfTokens bk.title, t ∉ vocabulary (c.map contentOf)) :
    recommend b c k =
      Except.ok
        (pythonSliceTake k ((c.filter (fun x => decide (x.id ∉ b.map Book.id))).reverse)) := by
  unfold recommend
  rw [core_eq_reverse_of_zero_overlap b c hb hc hv hz]
  rfl

theorem recommend_ok_cases (b c : List Book) (k : Int) (r : List Book)
    (h : recommend b c k = Except.ok r) :
    ∃ r₀, Recommendations.get_recommendations b c = Except.ok r₀ ∧
      r = pythonSliceTake k r₀ := by
  unfold recommend at h
  cases hcore : Recommendations.get_recommendations b c with
  | error e =>
    rw [hcore] at h
    exact absurd h (by simp [Except.map])
  | ok r₀ =>
    rw [hcore] at h
    simp only [Except.map, Except.ok.injEq] at h
    exact ⟨r₀, rfl, h.symm⟩

theorem core_ok_form (b c : List Book) (r : List Book)
    (h : Recommendations.get_recommendations b c = Except.ok r) :
    (b = [] ∧ r = []) ∨
      (b ≠ [] ∧
        List.Perm r (c.filter (fun x => decide (x.id ∉ b.map Book.id)))) := by
  by_cases hb : b = []
  · left
    refine ⟨hb, ?_⟩
    unfold Recommendations.get_recommendations at h
    rw [if_pos hb] at h
    exact (Except.ok.injEq _ _ ▸ h).symm
  · right
    refine ⟨hb, ?_⟩
    by_cases hc : c = []
    · unfold Recommendations.get_recommendations at h
      rw [if_neg hb, if_pos hc] at h
      exact absurd h (by simp)
    · by_cases hv : vocabulary (c.map contentOf) = []
      · unfold Recommendations.get_recommendations at h
        rw [if_neg hb, if_neg hc, if_pos hv] at h
        exact absurd h (by simp)
      · rw [core_eq_of_nonempty b c hb hc hv] at h
        have hr := (Except.ok.injEq _ _ ▸ h)
        subst hr
        have hperm := (argsortDesc_perm
          (recommendationScores (b.map Book.title) (c.map contentOf)))
        rw [recommendationScores_length, List.length_map] at hperm
        have := (hperm.filter
          (fun i => decide ((c.getD i default).id ∉ b.map Book.id))).map
            (fun i => c.getD i default)
        rw [filter_map_range_getD_ids] at this
        exact this

theorem mem_core_ok_unborrowed (b c : List Book) (r : List Book)
    (h : Recommendations.get_recommendations b c = Except.ok r) :
    ∀ x ∈ r, x.id ∉ b.map Book.id := by
  intro x hx
  rcases core_ok_form b c r h with ⟨_, hr⟩ | ⟨_, hperm⟩
  · subst hr
    exact absurd hx (List.not_mem_nil x)
  · have hxf := hperm.mem_iff.mp hx
    have := List.of_mem_filter hxf
    exact of_decide_eq_true this

/-! ### Further helper lemmas -/

theorem pythonSliceTake_nil (k : Int) : pythonSliceTake k ([] : List Book) = [] := by
  unfold pythonSliceTake
  split <;> simp

theorem pythonSliceTake_sublist (k : Int) (l : List Book) :
    List.Sublist (pythonSliceTake k l) l := by
  unfold pythonSliceTake
  split <;> exact List.take_sublist _ _

theorem pair_sublist_range (i j n : ℕ) (hij : i < j) (hjn : j < n) :
    List.Sublist [i, j] (List.range n) := by
  induction n with
  | zero => exact absurd hjn (Nat.not_lt_zero j)
  | succ m ih =>
    rw [List.range_succ]
    by_cases hjm : j < m
    · exact (ih hjm).trans (List.sublist_append_left _ _)
    · have hj : j = m := by omega
      subst hj
      exact List.Sublist.append (List.singleton_sublist.mpr (List.mem_range.mpr hij))
        (List.Sublist.refl [j])

theorem core_isOk_iff (b c : List Book) :
    (∃ r, Recommendations.get_recommendations b c = Except.ok r) ↔
      (b = [] ∨ (c ≠ [] ∧ vocabulary (c.map contentOf) ≠ [])) := by
  unfold Recommendations.get_recommendations
  by_cases hb : b = [] <;> by_cases hc : c = [] <;>
    by_cases hv : vocabulary (c.map contentOf) = [] <;> simp [hb, hc, hv]

theorem tfidfVector_not_mem_vocab (docs : List String) (text t : String)
    (ht : t ∉ vocabulary docs) : tfidfVector docs text t = 0 := by
  have hz : rawTfidf docs text t = 0 := by
    unfold rawTfidf
    rw [if_neg ht]
  unfold tfidfVector normalizeVec
  by_cases h : l2Norm (vocabulary docs) (rawTfidf docs text) = 0
  · rw [if_pos h]
    exact hz
  · rw [if_neg h]
    show rawTfidf docs text t / l2Norm (vocabulary docs) (rawTfidf docs text) = 0
    rw [hz, zero_div]

/-! ### Claim theorems -/

/-- C1 counterexample: for the borrowed list `[bookXylo]` (whose title
shares no vocabulary with the catalog), the catalog `[bookDuneA, bookDuneB]`
of two textually identical items and limit `10`, both unborrowed items tie
at score zero, yet the item appearing earlier in the input catalog appears
later in the output: ties are not broken by preserving the original catalog
order.  (On this two-element array NumPy's argsort is its pure insertion
sort, so its output is determinate, and `[::-1]` reverses it together with
its tie order.) -/
theorem C1_counterexample :
    recommend [bookXylo] [bookDuneA, bookDuneB] 10 = Except.ok [bookDuneB, bookDuneA] ∧
      bookDuneA ≠ bookDuneB := by
  constructor
  · rw [recommend_eq_of_zero_overlap _ _ 10 (by decide) (by decide) (by decide) (by decide)]
    exact congrArg Except.ok (by decide)
  · decide

/-- C1 (amended): ranking sorts catalog indices by descending score, but
ties are not broken by preserving the original catalog order: on catalogs
of at most `16` items — the regime in which NumPy's default argsort is its
pure, stable insertion sort, so the program's tie order is determinate and
exactly matched by the model (see `argsortRel`) — whenever two unborrowed
catalog positions `i < j` receive equal scores on a successful run, the
item at position `j` precedes the item at position `i` in the output
ranking (stated as a two-element sublist of the output).  On larger
catalogs NumPy guarantees no particular tie order at all, so no definite
tie-break — neither preserving nor reversing — holds there. -/
theorem C1_tie_order_reversed (b c : List Book) (i j : ℕ) (r : List Book)
    (hok : Recommendations.get_recommendations b c = Except.ok r)
    (hb : b ≠ []) (hij : i < j) (hj : j < c.length) (hsmall : c.length ≤ 16)
    (htie : (recommendationScores (b.map Book.title) (c.map contentOf)).getD i 0 =
      (recommendationScores (b.map Book.title) (c.map contentOf)).getD j 0)
    (hui : (c.getD i default).id ∉ b.map Book.id)
    (huj : (c.getD j default).id ∉ b.map Book.id) :
    List.Sublist [c.getD j default, c.getD i default] r := by
  have hc : c ≠ [] := by
    intro h
    rw [h] at hj
    exact absurd hj (by simp)
  by_cases hv : vocabulary (c.map contentOf) = []
  · exfalso
    unfold Recommendations.get_recommendations at hok
    rw [if_neg hb, if_neg hc, if_pos hv] at hok
    exact Except.noConfusion hok
  · rw [core_eq_of_nonempty b c hb hc hv] at hok
    injection hok with hr
    subst hr
    set s := recommendationScores (b.map Book.title) (c.map contentOf) with hs
    have hlen : s.length = c.length := by
      rw [hs, recommendationScores_length, List.length_map]
    have h1 : List.Sublist [i, j] (List.range s.length) := by
      rw [hlen]
      exact pair_sublist_range i j c.length hij hj
    have hrel : argsortRel s i j := Or.inr ⟨htie, Nat.le_of_lt hij⟩
    have h2 := List.pair_sublist_insertionSort hrel h1
    have h3 : List.Sublist [j, i] (argsortDesc s) := by
      unfold argsortDesc
      simpa using h2.reverse
    have h4 := h3.filter (fun x => decide ((c.getD x default).id ∉ b.map Book.id))
    have hPj : decide ((c.getD j default).id ∉ b.map Book.id) = true := decide_eq_true huj
    have hPi : decide ((c.getD i default).id ∉ b.map Book.id) = true := decide_eq_true hui
    have hfilter :
        ([j, i].filter (fun x => decide ((c.getD x default).id ∉ b.map Book.id))) = [j, i] := by
      rw [List.filter_cons, if_pos hPj, List.filter_cons, if_pos hPi, List.filter_nil]
    rw [hfilter] at h4
    simpa using h4.map (fun x => c.getD x default)

/-- C1 witness: the amended tie-order theorem applied to the concrete
zero-overlap instance of the counterexample. -/
theorem C1_tie_order_reversed_witness :
    List.Sublist [bookDuneB, bookDuneA] ([bookDuneB, bookDuneA] : List Book) := by
  have hz : ∀ x ∈ recommendationScores ([bookXylo].map Book.title)
      ([bookDuneA, bookDuneB].map contentOf), x = 0 := by
    apply recommendationScores_eq_zero
    decide
  exact C1_tie_order_reversed [bookXylo] [bookDuneA, bookDuneB] 0 1 [bookDuneB, bookDuneA]
    (by
      rw [core_eq_reverse_of_zero_overlap _ _ (by decide) (by decide) (by decide) (by decide)]
      exact congrArg Except.ok (by decide))
    (by decide) (by decide) (by decide) (by decide)
    (by rw [getD_eq_zero_of_all_zero _ hz 0, getD_eq_zero_of_all_zero _ hz 1])
    (by decide) (by decide)

/-- C2 counterexample: with a non-empty borrowed list and an empty catalog
the code does not return the empty sequence: `pd.DataFrame([])` has no
columns, so `all_books_df["title"]` raises `KeyError` and the call fails
instead of returning `[]`. -/
theorem C2_counterexample :
    recommend [bookDuneA] [] 10 = Except.error "KeyError: title" ∧
      recommend [bookDuneA] [] 10 ≠ Except.ok [] := by
  have h : recommend [bookDuneA] [] 10 = Except.error "KeyError: title" := by
    unfold recommend Recommendations.get_recommendations
    rw [if_neg (by decide), if_pos rfl]
    rfl
  refine ⟨h, ?_⟩
  rw [h]
  simp

/-- C2 (amended): `recommend([], catalog, k)` returns the empty sequence
for every catalog and every limit (the code short-circuits before touching
the catalog), but `recommend(items, [], k)` with a non-empty borrowed list
raises (`KeyError` on the missing `title` column of the empty catalog
DataFrame) rather than returning the empty sequence. -/
theorem C2_empty_inputs :
    (∀ (c : List Book) (k : Int), recommend [] c k = Except.ok []) ∧
      (∀ (b : List Book) (k : Int), b ≠ [] →
        recommend b [] k = Except.error "KeyError: title") := by
  constructor
  · intro c k
    unfold recommend Recommendations.get_recommendations
    rw [if_pos rfl]
    show Except.ok (pythonSliceTake k []) = Except.ok []
    rw [pythonSliceTake_nil]
  · intro b k hb
    unfold recommend Recommendations.get_recommendations
    rw [if_neg hb, if_pos rfl]
    rfl

/-- C2 witness: both branches of the amended claim at concrete inputs. -/
theorem C2_empty_inputs_witness :
    recommend [] [bookDuneA] 10 = Except.ok [] ∧
      recommend [bookDuneA] [] 10 = Except.error "KeyError: title" :=
  ⟨C2_empty_inputs.1 [bookDuneA] 10, C2_empty_inputs.2 [bookDuneA] 10 (by decide)⟩

/-- C3 counterexample: a valid input (all fields present and non-null) on
which the core raises instead of producing a degenerate valid output: a
catalog whose only content document consists of stop words, so
`TfidfVectorizer.fit_transform` raises `ValueError` (empty vocabulary). -/
theorem C3_counterexample :
    recommend [bookDuneA] [bookStop] 10 = Except.error "ValueError: empty vocabulary" := by
  unfold recommend Recommendations.get_recommendations
  rw [if_neg (by decide), if_neg (by decide), if_pos (by decide)]
  rfl

/-- C3 (amended): the call succeeds exactly when the borrowed list is empty
or the catalog is non-empty with a non-empty extracted vocabulary; with a
non-empty borrowed list, an empty catalog raises `KeyError` and a catalog
of zero-information documents raises `ValueError`, contrary to the claimed
totality.  (Zero-information borrowed titles and over-large limits do
produce valid degenerate outputs.) -/
theorem C3_success_characterization (b c : List Book) (k : Int) :
    (∃ r, recommend b c k = Except.ok r) ↔
      (b = [] ∨ (c ≠ [] ∧ vocabulary (c.map contentOf) ≠ [])) := by
  constructor
  · rintro ⟨r, hr⟩
    obtain ⟨r₀, hr₀, -⟩ := recommend_ok_cases b c k r hr
    exact (core_isOk_iff b c).mp ⟨r₀, hr₀⟩
  · intro hcase
    obtain ⟨r₀, hr₀⟩ := (core_isOk_iff b c).mpr hcase
    refine ⟨pythonSliceTake k r₀, ?_⟩
    unfold recommend
    rw [hr₀]
    rfl

/-- C4 counterexample: for the negative limit `-1` the result is not the
empty sequence and its length exceeds `max(k, 0)`: Python slicing `[:-1]`
drops only the last element, so a catalog of three unborrowed items yields
two recommendations. -/
theorem C4_counterexample :
    recommend [bookXylo] [bookDuneA, bookDuneB, bookAusten] (-1) =
        Except.ok [bookAusten, bookDuneB] ∧
      ¬((([bookAusten, bookDuneB] : List Book).length : Int) ≤ max (-1) 0) := by
  constructor
  · rw [recommend_eq_of_zero_overlap _ _ _ (by decide) (by decide) (by decide) (by decide)]
    exact congrArg Except.ok (by decide)
  · decide

/-- C4 (amended): on every successful call, a non-negative limit `k` bounds
the result length by `k` (so `len(recommend(b, c, k)) <= max(k, 0)` holds
for `k >= 0`), `k = 0` yields the empty sequence, and a limit at least the
core ranking's length returns exactly the whole ranking, with no padding;
but a negative limit follows Python slice semantics `l[:k]`, returning all
but the last `-k` items rather than the empty sequence. -/
theorem C4_limit_semantics (b c : List Book) (k : Int) (r : List Book)
    (h : recommend b c k = Except.ok r) :
    (0 ≤ k → ((r.length : Int) ≤ max k 0)) ∧
      (k = 0 → r = []) ∧
      (∀ r₀, Recommendations.get_recommendations b c = Except.ok r₀ →
        (r = pythonSliceTake k r₀ ∧
          (k < 0 → r.length = r₀.length - (-k).toNat) ∧
          ((r₀.length : Int) ≤ k → r = r₀))) := by
  obtain ⟨r₀, hok, hslice⟩ := recommend_ok_cases b c k r h
  refine ⟨?_, ?_, ?_⟩
  · intro hk
    have hlen : r.length ≤ k.toNat := by
      rw [hslice]
      unfold pythonSliceTake
      rw [if_pos hk]
      exact List.length_take_le _ _
    omega
  · intro hk
    subst hk
    rw [hslice]
    unfold pythonSliceTake
    rw [if_pos le_rfl]
    exact List.take_zero _
  · intro r₁ hok₁
    rw [hok₁] at hok
    injection hok with he
    subst he
    refine ⟨hslice, ?_, ?_⟩
    · intro hk
      rw [hslice]
      unfold pythonSliceTake
      rw [if_neg (by omega)]
      rw [List.length_take]
      omega
    · intro hk
      have h0 : (0 : Int) ≤ k := le_trans (by omega) hk
      rw [hslice]
      unfold pythonSliceTake
      rw [if_pos h0]
      exact List.take_of_length_le (by omega)

/-- C4 witness: the amended limit semantics at a concrete successful call
with limit `5` and two unborrowed catalog items. -/
theorem C4_limit_semantics_witness :
    (([bookDuneB, bookDuneA] : List Book).length : Int) ≤ max 5 0 :=
  (C4_limit_semantics [bookXylo] [bookDuneA, bookDuneB] 5 [bookDuneB, bookDuneA]
    (by
      rw [recommend_eq_of_zero_overlap _ _ _ (by decide) (by decide) (by decide) (by decide)]
      exact congrArg Except.ok (by decide))).1 (by decide)

/-- C5 counterexample: with an empty borrowed list the code short-circuits
to the empty sequence, so even though the limit `5` is at least the number
of unborrowed catalog items (one, and its id is not among the borrowed
ids), that unborrowed item does not appear in the output at all. -/
theorem C5_counterexample :
    recommend [] [bookDuneA] 5 = Except.ok [] ∧
      bookDuneA.id ∉ (([] : List Book).map Book.id) ∧
      (1 : Int) ≤ 5 ∧
      bookDuneA ∉ ([] : List Book) := by
  refine ⟨?_, by decide, by decide, by decide⟩
  unfold recommend Recommendations.get_recommendations
  rw [if_pos rfl]
  show Except.ok (pythonSliceTake 5 []) = Except.ok []
  rw [pythonSliceTake_nil]

/-- C5 (amended): on every successful call the output contains only catalog
items whose id is not in the borrowed-id set (no self-recommendation,
ever); and provided the borrowed list is non-empty, whenever the limit is
at least the number of unborrowed catalog items the output is a permutation
of the unborrowed catalog items, i.e. each appears exactly once.  (With an
empty borrowed list the output is empty regardless of the limit.) -/
theorem C5_no_self_recommendation (b c : List Book) (k : Int) (r : List Book)
    (h : recommend b c k = Except.ok r) :
    (∀ x ∈ r, x.id ∉ b.map Book.id) ∧
      (b ≠ [] →
        ((c.filter (fun x => decide (x.id ∉ b.map Book.id))).length : Int) ≤ k →
        List.Perm r (c.filter (fun x => decide (x.id ∉ b.map Book.id)))) := by
  obtain ⟨r₀, hok, hslice⟩ := recommend_ok_cases b c k r h
  constructor
  · intro x hx
    have hx₀ : x ∈ r₀ := by
      rw [hslice] at hx
      exact (pythonSliceTake_sublist k r₀).mem hx
    exact mem_core_ok_unborrowed b c r₀ hok x hx₀
  · intro hb hk
    rcases core_ok_form b c r₀ hok with ⟨hbe, -⟩ | ⟨-, hperm⟩
    · exact absurd hbe hb
    · have hlen : (r₀.length : Int) ≤ k := by
        rw [hperm.length_eq]
        exact hk
      have h0 : (0 : Int) ≤ k := le_trans (by omega) hlen
      have hr : r = r₀ := by
        rw [hslice]
        unfold pythonSliceTake
        rw [if_pos h0]
        exact List.take_of_length_le (by omega)
      rw [hr]
      exact hperm

/-- C5 witness: the amended theorem's exhaustion part at a concrete
successful call: limit `5`, two unborrowed catalog items, output a
permutation of (here: exactly) the unborrowed items. -/
theorem C5_no_self_recommendation_witness :
    List.Perm ([bookDuneB, bookDuneA] : List Book)
      (List.filter (fun x => decide (x.id ∉ [bookXylo].map Book.id))
        [bookDuneA, bookDuneB]) :=
  (C5_no_self_recommendation [bookXylo] [bookDuneA, bookDuneB] 5 [bookDuneB, bookDuneA]
    (by
      rw [recommend_eq_of_zero_overlap _ _ _ (by decide) (by decide) (by decide) (by decide)]
      exact congrArg Except.ok (by decide))).2 (by decide) (by decide)

/-- C6: the score of catalog item `j` is the arithmetic mean over all
entries of the borrowed sequence (one summand per occurrence, duplicates
not deduplicated) of the cosine similarity between the borrowed-title
vector and the catalog-document vector; and cosine similarity against the
zero vector is `0`. -/
theorem C6_scores_are_means (titles docs : List String) (j : ℕ) (hj : j < docs.length) :
    (recommendationScores titles docs).getD j 0 =
        ((titles.map (fun ti =>
          cosineSim (vocabulary docs) (tfidfVector docs ti)
            (tfidfVector docs (docs.getD j "")))).sum) / titles.length ∧
      ∀ v : String → ℝ, cosineSim (vocabulary docs) (fun _ => 0) v = 0 := by
  constructor
  · have h1 : j < (recommendationScores titles docs).length := by
      rw [recommendationScores_length]
      exact hj
    rw [List.getD_eq_getElem _ _ h1, List.getD_eq_getElem _ _ hj]
    unfold recommendationScores
    rw [List.getElem_map]
  · intro v
    exact cosineSim_zero_left _ v

/-- C6 witness: the mean formula at a concrete catalog of one document and
one borrowed title. -/
theorem C6_scores_are_means_witness :
    (recommendationScores ["Dune"] ["Dune Herbert SciFi"]).getD 0 0 =
      ((["Dune"].map (fun ti =>
        cosineSim (vocabulary ["Dune Herbert SciFi"])
          (tfidfVector ["Dune Herbert SciFi"] ti)
          (tfidfVector ["Dune Herbert SciFi"] (["Dune Herbert SciFi"].getD 0 "")))).sum)
        / (["Dune"] : List String).length :=
  (C6_scores_are_means ["Dune"] ["Dune Herbert SciFi"] 0 (by decide)).1

/-- C7: the user profile depends only on the title (and, for filtering, id)
fields of the borrowed items — replacing authors and genres of borrowed
items changes nothing; terms absent from the fitted vocabulary are dropped
(the transformed vector is zero outside the vocabulary, which carries the
catalog-fitted idf weights); and each catalog document is the concatenation
`title + " " + author + " " + genre`. -/
theorem C7_profile_from_titles_only (b b' c : List Book) (k : Int)
    (htitles : b.map Book.title = b'.map Book.title)
    (hids : b.map Book.id = b'.map Book.id) :
    recommend b c k = recommend b' c k ∧
      (∀ (docs : List String) (text t : String), t ∉ vocabulary docs →
        tfidfVector docs text t = 0) ∧
      (∀ x : Book, contentOf x = x.title ++ " " ++ x.author ++ " " ++ x.genre) := by
  refine ⟨?_, fun docs text t ht => tfidfVector_not_mem_vocab docs text t ht, fun x => rfl⟩
  have hbe : b = [] ↔ b' = [] := by
    rw [← List.map_eq_nil_iff (f := Book.title), ← List.map_eq_nil_iff (f := Book.title),
      htitles]
  by_cases hb : b = []
  · have hb' : b' = [] := hbe.mp hb
    unfold recommend Recommendations.get_recommendations
    rw [if_pos hb, if_pos hb']
  · have hb' : b' ≠ [] := fun h => hb (hbe.mpr h)
    unfold recommend Recommendations.get_recommendations
    rw [if_neg hb, if_neg hb', htitles, hids]

/-- C7 witness: changing the author and genre of a borrowed item (same id,
same title) leaves the result unchanged on a concrete input. -/
theorem C7_profile_from_titles_only_witness :
    recommend [bookDuneA] [bookDuneB] 10 = recommend [bookDuneVariant] [bookDuneB] 10 :=
  (C7_profile_from_titles_only [bookDuneA] [bookDuneVariant] [bookDuneB] 10
    (by decide) (by decide)).1

/-- C8: the pipeline is deterministic — two calls with identical borrowed
list, catalog and limit produce identical output sequences (the embedding
is a pure function of its inputs; the source has no randomness, clocks or
hidden state, and NumPy's argsort is deterministic for fixed input). -/
theorem C8_deterministic (b₁ b₂ c₁ c₂ : List Book) (k₁ k₂ : Int)
    (hb : b₁ = b₂) (hc : c₁ = c₂) (hk : k₁ = k₂) :
    recommend b₁ c₁ k₁ = recommend b₂ c₂ k₂ := by
  rw [hb, hc, hk]

/-- C8 witness: determinism at a concrete call. -/
theorem C8_deterministic_witness :
    recommend [bookDuneA] [bookDuneB] 10 = recommend [bookDuneA] [bookDuneB] 10 :=
  C8_deterministic [bookDuneA] [bookDuneA] [bookDuneB] [bookDuneB] 10 10 rfl rfl rfl

/-- C9: `crud.get_borrowed_books_by_user` returns the empty list for every
database state, user id, skip and limit: the filter operand
`models.BorrowedBook.returned_date is None` is an identity comparison of
the column attribute object against `None`, evaluated to the constant
`False` when the query is built, so the conjunction matches no row. -/
theorem C9_get_borrowed_books_by_user_empty (db : DB) (user_id : Int) (skip limit : ℕ) :
    Crud.get_borrowed_books_by_user db user_id skip limit = [] := by
  unfold Crud.get_borrowed_books_by_user Crud.returnedDateColumnIsNone
  simp

/-- C10 counterexample: a user with two borrow records of the same book
(one of them returned).  The claim predicts one borrowed entry per borrow
record (two entries); the ORM query deduplicates full-entity rows by
primary key, so the borrowed list holds the book once. -/
theorem C10_counterexample :
    Crud.userBorrowedBooks dbDup 7 = [bookDuneA] ∧
      (dbDup.borrows.filter (fun r => r.user_id == 7)).length = 2 ∧
      (Crud.userBorrowedBooks dbDup 7).length ≠
        (dbDup.borrows.filter (fun r => r.user_id == 7)).length := by
  refine ⟨by decide, by decide, by decide⟩

/-- C10 (amended): the wrapper `crud.get_recommendations` builds the
borrowed list from all of the user's borrow rows including already-returned
ones — a book belongs to it exactly when some borrow row of the user
references it — but with one entry per distinct borrowed book (the legacy
ORM query deduplicates entity rows by primary key), not one per borrow
record; it passes the entire book table as the catalog and truncates the
core ranking by the Python slice `[:limit]`; and the HTTP recommendations
endpoint always invokes it with the default `limit = 10`. -/
theorem C10_wrapper_semantics (db : DB) (user_id : Int) (k : Int) (x : Book) :
    Main.get_my_recommendations db user_id = Crud.get_recommendations db user_id 10 ∧
      Crud.get_recommendations db user_id k =
        (Recommendations.get_recommendations (Crud.userBorrowedBooks db user_id)
          db.books).map (pythonSliceTake k) ∧
      (x ∈ Crud.userBorrowedBooks db user_id ↔
        x ∈ db.books ∧ ∃ rr ∈ db.borrows, rr.user_id = user_id ∧ rr.book_id = x.id) := by
  refine ⟨rfl, rfl, ?_⟩
  unfold Crud.userBorrowedBooks
  rw [List.mem_filter]
  constructor
  · rintro ⟨hx, hany⟩
    refine ⟨hx, ?_⟩
    obtain ⟨rr, hrr, hcond⟩ := List.any_eq_true.mp hany
    rw [Bool.and_eq_true, beq_iff_eq, beq_iff_eq] at hcond
    exact ⟨rr, hrr, hcond.1, hcond.2⟩
  · rintro ⟨hx, rr, hrr, h1, h2⟩
    refine ⟨hx, List.any_eq_true.mpr ⟨rr, hrr, ?_⟩⟩
    rw [Bool.and_eq_true, beq_iff_eq, beq_iff_eq]
    exact ⟨h1, h2⟩
